import Mathlib

/-!
Verification of the parameter-update core of the tinynn library
(`core/optimizer.py`): the `Optimizer` family (SGD, Momentum, Adam) and the
`LRScheduler` family (MultiStepLR, ExponentialLR, LinearLR), shallowly
embedded in Lean.

Numeric model: numpy float arrays are modelled as lists of exact numbers
(`ℚ` where the code uses only field operations, `ℝ` where it uses
`np.sqrt`/fractional powers).  A numpy ndarray is a shape together with its
row-major flat data.
-/

set_option maxHeartbeats 1000000

namespace TinyNN

/-- An ndarray as the optimizer core sees it: a shape (list of dimension
sizes) and the row-major flat data.  `np.ravel` returns `data`;
`np.prod(shape)` is `shape.prod`; `reshape` to a shape of matching element
count only relabels `shape` and keeps `data`. -/
structure Tensor where
  shape : List Nat
  data : List ℚ
  deriving DecidableEq

/-- Element count of a tensor, `np.prod(t.shape)`. -/
def Tensor.size (t : Tensor) : Nat := t.shape.prod

/-- The flatten pass of `Optimizer.step`:
`np.concatenate([np.ravel(grad) for param, grad in net.get_params_and_grads()])`.
`pg` is the ordered list of (parameter, gradient) pairs. -/
def flatGrads (pg : List (Tensor × Tensor)) : List ℚ :=
  (pg.map (fun pr => pr.2.data)).flatten

/-- The unflatten pass of `Optimizer.step`: walk the pairs in the same
order, cut `step[pointer : pointer+block]` with `block = np.prod(param.shape)`,
reshape it to the parameter's shape and add it to the parameter in place
(`param += ...`). -/
def applyBlocks (st : List ℚ) : List (Tensor × Tensor) → List Tensor
  | [] => []
  | (p, _) :: rest =>
      Tensor.mk p.shape (List.zipWith (· + ·) p.data (st.take p.size)) ::
        applyBlocks (st.drop p.size) rest

/-- `Optimizer.step(net)`: concatenate all gradients into one flat vector,
run the variant-specific `_compute_step` `f` on it, and partition the result
back onto the parameters.  The base class owns this machinery; each variant
only supplies `f`. -/
def Optimizer.step (f : List ℚ → List ℚ) (pg : List (Tensor × Tensor)) :
    List Tensor :=
  applyBlocks (f (flatGrads pg)) pg

/-- Partition of a flat vector into consecutive blocks of the given sizes
(the slices `st[pointer : pointer+block]` taken by the unflatten loop). -/
def splitBlocks (st : List ℚ) : List Nat → List (List ℚ)
  | [] => []
  | n :: ns => st.take n :: splitBlocks (st.drop n) ns

/-- A numpy value as the accumulator state sees it: either a python scalar
(the `0` the accumulators are initialised with, `self._acc: Tensor = 0`) or
a flat array.  Elementwise arithmetic broadcasts a scalar against an array,
as numpy does. -/
inductive NpVal where
  | scalar (x : ℚ)
  | arr (xs : List ℚ)
  deriving DecidableEq

/-- Elementwise binary operation with numpy scalar broadcasting. -/
def NpVal.bop (f : ℚ → ℚ → ℚ) : NpVal → NpVal → NpVal
  | scalar a, scalar b => scalar (f a b)
  | scalar a, arr bs => arr (bs.map (fun b => f a b))
  | arr as, scalar b => arr (as.map (fun a => f a b))
  | arr as, arr bs => arr (List.zipWith f as bs)

/-- Elementwise `+` with broadcasting. -/
def NpVal.add : NpVal → NpVal → NpVal := NpVal.bop (· + ·)

/-- Multiplication of a numpy value by a python scalar on the left
(`c * t`), a broadcastd elementwise `*`. -/
def NpVal.smul (c : ℚ) (t : NpVal) : NpVal := NpVal.bop (· * ·) (NpVal.scalar c) t

/-- SGD's `_compute_step`: `return - self.lr * grad`; the flat gradient is
always an array, so this is plain elementwise scaling.  SGD keeps no state. -/
def SGD.computeStep (lr : ℚ) (grad : List ℚ) : List ℚ :=
  grad.map (fun x => -lr * x)

/-- State of a `Momentum` optimizer: learning rate, momentum coefficient,
and the accumulator (initialised to the scalar `0`). -/
structure Momentum where
  lr : ℚ
  momentum : ℚ
  acc : NpVal
  deriving DecidableEq

/-- `Momentum.__init__(lr, momentum)`: stores both coefficients and sets
`self._acc = 0` (a scalar, lazily broadcast). -/
def Momentum.init (lr : ℚ) (momentum : ℚ) : Momentum :=
  { lr := lr, momentum := momentum, acc := NpVal.scalar 0 }

/-- `Momentum._compute_step(grad)`:
`self._acc = self._momentum * self._acc + grad; step = -self.lr * self._acc`.
Returns the updated optimizer state and the flat step. -/
def Momentum.computeStep (s : Momentum) (grad : NpVal) : Momentum × NpVal :=
  let acc := NpVal.add (NpVal.smul s.momentum s.acc) grad
  ({ s with acc := acc }, NpVal.smul (-s.lr) acc)

/-- Run of a `Momentum` optimizer over a sequence of flat gradients,
collecting the step returned by each `_compute_step` call. -/
def Momentum.run (s : Momentum) : List (List ℚ) → List NpVal
  | [] => []
  | g :: gs =>
      let r := s.computeStep (NpVal.arr g)
      r.2 :: Momentum.run r.1 gs

/-- State of an `LRScheduler` together with the optimizer it wraps.
`optLr` is the optimizer's live `lr` field (the one field the scheduler
reads and writes), `optRest` stands for all other fields of the wrapped
optimizer, `initial_lr` is the snapshot `self._initial_lr` taken at
construction, `t` is the step counter `self._t`, and `cfg` holds the
variant-specific constants. -/
structure Sched (α ρ σ : Type) where
  optLr : α
  optRest : ρ
  initial_lr : α
  t : Nat
  cfg : σ
  deriving DecidableEq

/-- `LRScheduler.__init__(optimizer)`: snapshot the optimizer's current
rate as `_initial_lr` and start the counter at 0. -/
def Sched.init {α ρ σ : Type} (optLr : α) (optRest : ρ) (cfg : σ) :
    Sched α ρ σ :=
  { optLr := optLr, optRest := optRest, initial_lr := optLr, t := 0,
    cfg := cfg }

/-- `get_current_lr()`: read the optimizer's live rate. -/
def Sched.getCurrentLr {α ρ σ : Type} (s : Sched α ρ σ) : α := s.optLr

/-- `LRScheduler.step()`: increment `_t` by 1, write `_compute_lr()` into
the optimizer's `lr`, and return `get_current_lr()`.  `computeLr` is the
variant-specific `_compute_lr`, which sees the already-incremented counter
and the optimizer's current rate. -/
def Sched.step {α ρ σ : Type} (computeLr : Sched α ρ σ → α)
    (s : Sched α ρ σ) : Sched α ρ σ × α :=
  let s1 := { s with t := s.t + 1 }
  let s2 := { s1 with optLr := computeLr s1 }
  (s2, s2.getCurrentLr)

/-- Python `int(m)` applied to an exact numeric value: truncation toward
zero. -/
def pyInt (q : ℚ) : ℤ := if 0 ≤ q then ⌊q⌋ else -⌊-q⌋

/-- Part of the `MultiStepLR.__init__` assert, applied to already converted
milestones: `isinstance(x, int)` is necessarily true after `int(m)`
conversion. -/
def isinstanceInt (_m : ℤ) : Bool := true

/-- `MultiStepLR.__init__(optimizer, milestones, gamma)`: first rebinds
`milestones = [int(m) for m in milestones]`, then asserts
`all(x < y for x, y in zip(milestones[:-1], milestones[1:]))` and
`all(isinstance(x, int) for x in milestones)` — the second conjunct on the
already-converted list.  Returns the stored milestones and gamma, or the
assert message. -/
def MultiStepLR.init (milestones : List ℚ) (gamma : ℚ) :
    Except String (List ℤ × ℚ) :=
  let ms := milestones.map pyInt
  if ((ms.zip ms.tail).all fun pr => decide (pr.1 < pr.2)) && ms.all isinstanceInt then
    Except.ok (ms, gamma)
  else
    Except.error "milestones must be a list of int and be increasing!"

/-- The `Optimizer` base class: its only field is the learning rate. -/
structure Optimizer where
  lr : ℚ
  deriving DecidableEq

/-- `Optimizer.__init__(lr)`: `self.lr = lr` and nothing else — there is no
validation, so construction never raises; modelled as an `Except` that is
always `ok`. -/
def Optimizer.init (lr : ℚ) : Except String Optimizer :=
  Except.ok { lr := lr }

/-- `SGD.__init__(lr)`: only calls `super().__init__(lr)`. -/
def SGD.init (lr : ℚ) : Except String Optimizer :=
  Optimizer.init lr

/-- Constants stored by `LinearLR.__init__`: target rate, decay window,
start offset, and the precomputed fixed per-step delta
`(final_lr - initial_lr) / decay_steps`. -/
structure LinearCfg where
  final_lr : ℚ
  decay_steps : Nat
  start_step : Nat
  lr_delta : ℚ
  deriving DecidableEq

/-- `LinearLR.__init__(optimizer, decay_steps, final_lr, start_step)`:
asserts `final_lr < self._initial_lr` and `decay_steps > 0`, then stores
`_lr_delta = (final_lr - self._initial_lr) / decay_steps` and the
constants. -/
def LinearLR.init (optLr : ℚ) (decay_steps : Nat) (final_lr : ℚ)
    (start_step : Nat) : Except String (Sched ℚ Unit LinearCfg) :=
  if final_lr < optLr then
    if 0 < decay_steps then
      Except.ok (Sched.init optLr ()
        { final_lr := final_lr, decay_steps := decay_steps,
          start_step := start_step,
          lr_delta := (final_lr - optLr) / (decay_steps : ℚ) })
    else Except.error "assert decay_steps > 0"
  else Except.error "The final lr should be no greater than the initial lr."

/-- `LinearLR._compute_lr()`: if `self._t > self._start_step` and
`self._t <= self._start_step + self._decay_steps`, return the current
(live) rate plus the fixed delta, otherwise return the current rate
unchanged. -/
def LinearLR.computeLr (s : Sched ℚ Unit LinearCfg) : ℚ :=
  if s.cfg.start_step < s.t then
    if s.t ≤ s.cfg.start_step + s.cfg.decay_steps then
      s.getCurrentLr + s.cfg.lr_delta
    else s.getCurrentLr
  else s.getCurrentLr

/-- One `step()` call of a LinearLR scheduler. -/
def LinearLR.step (s : Sched ℚ Unit LinearCfg) : Sched ℚ Unit LinearCfg × ℚ :=
  Sched.step LinearLR.computeLr s

/-- Constants of the concrete LinearLR scheduler of the claim:
`decay_steps = 5, final_lr = 0, start_step = 0` from `initial_lr = 1`,
hence `lr_delta = -1/5`. -/
def linCfg : LinearCfg :=
  { final_lr := 0, decay_steps := 5, start_step := 0, lr_delta := -1 / 5 }

/-- The concrete LinearLR scheduler of the claim, wrapped around an
optimizer with `lr = 1`. -/
def linearEx : Sched ℚ Unit LinearCfg := Sched.init 1 () linCfg

/-- Successive states of the concrete scheduler: rate `lr` and counter `t`
over the constants `linCfg`. -/
def linS (lr : ℚ) (t : Nat) : Sched ℚ Unit LinearCfg :=
  { optLr := lr, optRest := (), initial_lr := 1, t := t, cfg := linCfg }

/-- Witness states for C6: a LinearLR scheduler with `start_step = 2`,
`decay_steps = 4` around an optimizer at rate 1, with counters 0, 2 and 8
(so the next call lands before, inside, and after the decay window). -/
def linW (t0 : Nat) : Sched ℚ Unit LinearCfg :=
  { optLr := 1, optRest := (), initial_lr := 1, t := t0,
    cfg := { final_lr := 0, decay_steps := 4, start_step := 2,
             lr_delta := -1 / 4 } }

/-- Constants stored by `ExponentialLR.__init__`: `_decay_steps` and
`_decay_rate` (default `1/np.e`). -/
structure ExpCfg where
  decay_steps : Nat
  decay_rate : ℝ

/-- `ExponentialLR._compute_lr()`: while `self._t <= self._decay_steps`,
return `self._initial_lr * self._decay_rate ** (self._t / self._decay_steps)`
(real exponentiation with the exact quotient as exponent, computed fresh
from the snapshot); otherwise return the current rate unchanged. -/
noncomputable def ExponentialLR.computeLr (s : Sched ℝ Unit ExpCfg) : ℝ :=
  if s.t ≤ s.cfg.decay_steps then
    s.initial_lr * s.cfg.decay_rate ^ ((s.t : ℝ) / (s.cfg.decay_steps : ℝ))
  else s.getCurrentLr

/-- One `step()` call of an ExponentialLR scheduler. -/
noncomputable def ExponentialLR.step (s : Sched ℝ Unit ExpCfg) :
    Sched ℝ Unit ExpCfg × ℝ :=
  Sched.step ExponentialLR.computeLr s

/-- The concrete ExponentialLR scheduler of the claim:
`decay_steps = 10, decay_rate = 1/2` from `initial_lr = 1`. -/
noncomputable def expEx : Sched ℝ Unit ExpCfg :=
  Sched.init 1 () { decay_steps := 10, decay_rate := 1 / 2 }

/-- Witness state for C2's frozen branch: an ExponentialLR scheduler whose
counter (12) is already past `decay_steps = 10`. -/
noncomputable def expW : Sched ℝ Unit ExpCfg :=
  { optLr := 3, optRest := (), initial_lr := 1, t := 12,
    cfg := { decay_steps := 10, decay_rate := 1 / 2 } }

/-- A numpy value over the reals, with scalar broadcasting, for the Adam
optimizer whose update uses `np.sqrt` (`self._m: Tensor = 0`,
`self._v: Tensor = 0` are python scalars). -/
inductive RVal where
  | scalar (x : ℝ)
  | arr (xs : List ℝ)

/-- Elementwise binary operation with numpy scalar broadcasting, over ℝ. -/
def RVal.bop (f : ℝ → ℝ → ℝ) : RVal → RVal → RVal
  | scalar a, scalar b => scalar (f a b)
  | scalar a, arr bs => arr (bs.map (fun b => f a b))
  | arr as, scalar b => arr (as.map (fun a => f a b))
  | arr as, arr bs => arr (List.zipWith f as bs)

/-- Elementwise unary operation (`np.sqrt`, `np.square`). -/
def RVal.umap (f : ℝ → ℝ) : RVal → RVal
  | scalar x => scalar (f x)
  | arr xs => arr (xs.map f)

/-- Elementwise `+` with broadcasting. -/
noncomputable def RVal.add : RVal → RVal → RVal := RVal.bop (· + ·)

/-- Multiplication by a python scalar on the left. -/
noncomputable def RVal.smul (c : ℝ) (t : RVal) : RVal :=
  RVal.bop (· * ·) (RVal.scalar c) t

/-- Elementwise `/` with broadcasting. -/
noncomputable def RVal.div : RVal → RVal → RVal := RVal.bop (· / ·)

/-- `np.square`. -/
noncomputable def RVal.square : RVal → RVal := RVal.umap (fun x => x ^ 2)

/-- `np.sqrt`. -/
noncomputable def RVal.sqrtv : RVal → RVal := RVal.umap Real.sqrt

/-- State of an `Adam` optimizer: learning rate, the β/ε constants, the
step count `_t` (init 0) and the two moment accumulators (init scalar
0). -/
structure Adam where
  lr : ℝ
  beta1 : ℝ
  beta2 : ℝ
  eps : ℝ
  t : Nat
  m : RVal
  v : RVal

/-- `Adam.__init__(lr, beta1, beta2, epsilon)`. -/
noncomputable def Adam.init (lr b1 b2 eps : ℝ) : Adam :=
  { lr := lr, beta1 := b1, beta2 := b2, eps := eps, t := 0,
    m := RVal.scalar 0, v := RVal.scalar 0 }

/-- The bias-corrected rate of `Adam._compute_step`:
`lr_t = lr * sqrt(1 - b2**t) / (1 - b1**t)`. -/
noncomputable def Adam.lrT (lr b1 b2 : ℝ) (t : Nat) : ℝ :=
  lr * Real.sqrt (1 - b2 ^ t) / (1 - b1 ^ t)

/-- `Adam._compute_step(grad)`: increments `_t`, computes the
bias-corrected rate, updates both moments, and returns
`-lr_t * m / (sqrt(v) + eps)`. -/
noncomputable def Adam.computeStep (s : Adam) (grad : RVal) : Adam × RVal :=
  let t := s.t + 1
  let lr_t := Adam.lrT s.lr s.beta1 s.beta2 t
  let m := RVal.add (RVal.smul s.beta1 s.m) (RVal.smul (1 - s.beta1) grad)
  let v := RVal.add (RVal.smul s.beta2 s.v)
    (RVal.smul (1 - s.beta2) (RVal.square grad))
  let step := RVal.div (RVal.smul (-lr_t) m)
    (RVal.add (RVal.sqrtv v) (RVal.scalar s.eps))
  ({ s with t := t, m := m, v := v }, step)

lemma applyBlocks_eq_zipWith (st : List ℚ) (pg : List (Tensor × Tensor)) :
    applyBlocks st pg =
      List.zipWith
        (fun (pr : Tensor × Tensor) (b : List ℚ) =>
          Tensor.mk pr.1.shape (List.zipWith (· + ·) pr.1.data b))
        pg (splitBlocks st (pg.map fun pr => pr.1.size)) := by
  induction pg generalizing st with
  | nil => rfl
  | cons hd tl ih =>
      obtain ⟨p, g⟩ := hd
      simp only [applyBlocks, List.map_cons, splitBlocks, List.zipWith_cons_cons]
      exact congrArg _ (ih _)

lemma splitBlocks_join (ls : List (List ℚ)) :
    splitBlocks ls.flatten (ls.map List.length) = ls := by
  induction ls with
  | nil => rfl
  | cons hd tl ih =>
      simp only [List.flatten_cons, List.map_cons, splitBlocks,
        List.take_left, List.drop_left]
      exact congrArg _ ih

lemma splitBlocks_length_map (st : List ℚ) (ns : List Nat)
    (h : ns.sum ≤ st.length) :
    (splitBlocks st ns).map List.length = ns := by
  induction ns generalizing st with
  | nil => rfl
  | cons n ns ih =>
      simp only [List.sum_cons] at h
      simp only [splitBlocks, List.map_cons, List.length_take]
      have h1 : n ⊓ st.length = n := min_eq_left (by omega)
      rw [h1, ih _ (by simp only [List.length_drop]; omega)]

lemma flatGrads_length (pg : List (Tensor × Tensor))
    (hshape : ∀ pr ∈ pg, pr.2.data.length = pr.1.size) :
    (flatGrads pg).length = (pg.map fun pr => pr.1.size).sum := by
  induction pg with
  | nil => rfl
  | cons hd tl ih =>
      simp only [flatGrads, List.map_cons, List.flatten_cons, List.length_append,
        List.sum_cons]
      rw [hshape hd (List.mem_cons_self _ _)]
      exact congrArg _ (ih fun pr h => hshape pr (List.mem_cons_of_mem _ h))

/-- C1.  `Optimizer.step` concatenates all flattened gradients in iteration
order, feeds the flat vector to `_compute_step`, splits the returned vector
of identical length back into per-parameter blocks by element count in the
same order, and adds each block (reshaped to the parameter's shape) to the
corresponding parameter; moreover the concatenate/split round-trip
reproduces the original per-parameter flat gradients, and each block has
exactly the element count of its parameter, so reshaping to the parameter's
shape succeeds. -/
theorem optimizer_step_flatten_unflatten (f : List ℚ → List ℚ)
    (pg : List (Tensor × Tensor))
    (hshape : ∀ pr ∈ pg, pr.2.shape = pr.1.shape ∧
      pr.1.data.length = pr.1.size ∧ pr.2.data.length = pr.1.size)
    (hf : (f (flatGrads pg)).length = (flatGrads pg).length) :
    Optimizer.step f pg =
      List.zipWith
        (fun (pr : Tensor × Tensor) (b : List ℚ) =>
          Tensor.mk pr.1.shape (List.zipWith (· + ·) pr.1.data b))
        pg (splitBlocks (f (flatGrads pg)) (pg.map fun pr => pr.1.size))
    ∧ splitBlocks (flatGrads pg) (pg.map fun pr => pr.1.size) =
        (pg.map fun pr => pr.2.data)
    ∧ (splitBlocks (f (flatGrads pg)) (pg.map fun pr => pr.1.size)).map
        List.length = pg.map fun pr => pr.1.size := by
  have hsize : (pg.map fun pr => pr.1.size) =
      (pg.map fun pr => pr.2.data).map List.length := by
    rw [List.map_map]
    exact List.map_congr_left fun pr h => ((hshape pr h).2.2).symm
  refine ⟨applyBlocks_eq_zipWith _ _, ?_, ?_⟩
  · rw [hsize, flatGrads, splitBlocks_join]
  · refine splitBlocks_length_map _ _ ?_
    rw [hf, flatGrads_length pg fun pr h => (hshape pr h).2.2]

/-- Witness for C1 at a concrete instance: two parameters of shapes
`[2]` and `[2, 1]`, matching gradients, and a length-preserving
`_compute_step` that doubles the vector. -/
theorem optimizer_step_flatten_unflatten_witness :
    (∀ pr ∈ [(Tensor.mk [2] [1, 2], Tensor.mk [2] [3, 4]),
             (Tensor.mk [2, 1] [5, 6], Tensor.mk [2, 1] [7, 8])],
        pr.2.shape = pr.1.shape ∧
          pr.1.data.length = pr.1.size ∧ pr.2.data.length = pr.1.size)
    ∧ ((fun l : List ℚ => l.map (fun x => 2 * x))
          (flatGrads [(Tensor.mk [2] [1, 2], Tensor.mk [2] [3, 4]),
             (Tensor.mk [2, 1] [5, 6], Tensor.mk [2, 1] [7, 8])])).length =
        (flatGrads [(Tensor.mk [2] [1, 2], Tensor.mk [2] [3, 4]),
             (Tensor.mk [2, 1] [5, 6], Tensor.mk [2, 1] [7, 8])]).length
    ∧ (Optimizer.step (fun l : List ℚ => l.map (fun x => 2 * x))
          [(Tensor.mk [2] [1, 2], Tensor.mk [2] [3, 4]),
             (Tensor.mk [2, 1] [5, 6], Tensor.mk [2, 1] [7, 8])] =
        List.zipWith
          (fun (pr : Tensor × Tensor) (b : List ℚ) =>
            Tensor.mk pr.1.shape (List.zipWith (· + ·) pr.1.data b))
          [(Tensor.mk [2] [1, 2], Tensor.mk [2] [3, 4]),
             (Tensor.mk [2, 1] [5, 6], Tensor.mk [2, 1] [7, 8])]
          (splitBlocks
            ((fun l : List ℚ => l.map (fun x => 2 * x))
              (flatGrads [(Tensor.mk [2] [1, 2], Tensor.mk [2] [3, 4]),
                 (Tensor.mk [2, 1] [5, 6], Tensor.mk [2, 1] [7, 8])]))
            ([(Tensor.mk [2] [1, 2], Tensor.mk [2] [3, 4]),
               (Tensor.mk [2, 1] [5, 6], Tensor.mk [2, 1] [7, 8])].map
                fun pr => pr.1.size))
       ∧ splitBlocks
            (flatGrads [(Tensor.mk [2] [1, 2], Tensor.mk [2] [3, 4]),
               (Tensor.mk [2, 1] [5, 6], Tensor.mk [2, 1] [7, 8])])
            ([(Tensor.mk [2] [1, 2], Tensor.mk [2] [3, 4]),
               (Tensor.mk [2, 1] [5, 6], Tensor.mk [2, 1] [7, 8])].map
                fun pr => pr.1.size) =
            ([(Tensor.mk [2] [1, 2], Tensor.mk [2] [3, 4]),
               (Tensor.mk [2, 1] [5, 6], Tensor.mk [2, 1] [7, 8])].map
              fun pr => pr.2.data)
       ∧ (splitBlocks
            ((fun l : List ℚ => l.map (fun x => 2 * x))
              (flatGrads [(Tensor.mk [2] [1, 2], Tensor.mk [2] [3, 4]),
                 (Tensor.mk [2, 1] [5, 6], Tensor.mk [2, 1] [7, 8])]))
            ([(Tensor.mk [2] [1, 2], Tensor.mk [2] [3, 4]),
               (Tensor.mk [2, 1] [5, 6], Tensor.mk [2, 1] [7, 8])].map
                fun pr => pr.1.size)).map List.length =
          [(Tensor.mk [2] [1, 2], Tensor.mk [2] [3, 4]),
             (Tensor.mk [2, 1] [5, 6], Tensor.mk [2, 1] [7, 8])].map
            fun pr => pr.1.size) :=
  ⟨by decide, by decide,
    optimizer_step_flatten_unflatten _ _ (by decide) (by decide)⟩

/-- C7.  Each `Momentum._compute_step` with gradient `g` sets
`acc = momentum*acc + g` and returns `-lr*acc`; starting from the zero
accumulator, after two calls with the same constant gradient `g` the
accumulator equals `momentum*g + g` and the step (parameter delta) applied
on call 2 equals `-lr*(momentum*g + g)` elementwise. -/
theorem momentum_two_calls (lr mom : ℚ) (g : List ℚ) :
    (∀ (s : Momentum) (grad : NpVal),
        s.computeStep grad =
          ({ s with acc := NpVal.add (NpVal.smul s.momentum s.acc) grad },
            NpVal.smul (-s.lr) (NpVal.add (NpVal.smul s.momentum s.acc) grad)))
    ∧ ((Momentum.init lr mom).computeStep (NpVal.arr g)).1.acc = NpVal.arr g
    ∧ ((((Momentum.init lr mom).computeStep (NpVal.arr g)).1.computeStep
          (NpVal.arr g)).1.acc =
        NpVal.arr (g.map fun x => mom * x + x))
    ∧ ((((Momentum.init lr mom).computeStep (NpVal.arr g)).1.computeStep
          (NpVal.arr g)).2 =
        NpVal.arr (g.map fun x => -lr * (mom * x + x))) := by
  refine ⟨fun s grad => rfl, ?_, ?_, ?_⟩
  · simp [Momentum.computeStep, Momentum.init, NpVal.add, NpVal.smul, NpVal.bop]
  all_goals
    simp only [Momentum.computeStep, Momentum.init, NpVal.add, NpVal.smul,
      NpVal.bop, List.map_map, List.zipWith_map_left, List.zipWith_same]
  all_goals
    refine congrArg _ (List.map_congr_left fun x hx => ?_)
    simp only [Function.comp_apply]
    ring

lemma optStep_pointwise (h : ℚ → ℚ) (pg : List (Tensor × Tensor))
    (hlen : ∀ pr ∈ pg, pr.1.data.length = pr.1.size ∧
      pr.2.data.length = pr.1.size) :
    Optimizer.step (fun l => l.map h) pg =
      pg.map (fun pr => Tensor.mk pr.1.shape
        (List.zipWith (· + ·) pr.1.data (pr.2.data.map h))) := by
  induction pg with
  | nil => rfl
  | cons hd tl ih =>
      obtain ⟨p, g⟩ := hd
      have hg : g.data.length = p.size :=
        (hlen (p, g) (List.mem_cons_self _ _)).2
      simp only [Optimizer.step, flatGrads, List.map_cons, List.flatten_cons,
        applyBlocks]
      rw [← List.map_take, ← List.map_drop, ← hg, List.take_left,
        List.drop_left]
      exact congrArg _ (ih fun pr hpr => hlen pr (List.mem_cons_of_mem _ hpr))

/-- C8.  With `_compute_step = SGD`, every call of `Optimizer.step` changes
each parameter by exactly `-lr * g` (its own block of the flat vector) and
keeps its shape; and since SGD has no state, a second call on the updated
parameters with the identical gradients adds the identical delta again. -/
theorem sgd_step_stateless (lr : ℚ) (pg : List (Tensor × Tensor))
    (hlen : ∀ pr ∈ pg, pr.1.data.length = pr.1.size ∧
      pr.2.data.length = pr.1.size) :
    Optimizer.step (SGD.computeStep lr) pg =
      (pg.map fun pr => Tensor.mk pr.1.shape
        (List.zipWith (· + ·) pr.1.data (pr.2.data.map fun x => -lr * x)))
    ∧ Optimizer.step (SGD.computeStep lr)
        ((Optimizer.step (SGD.computeStep lr) pg).zip
          (pg.map fun pr => pr.2)) =
      (pg.map fun pr => Tensor.mk pr.1.shape
        (List.zipWith (· + ·)
          (List.zipWith (· + ·) pr.1.data (pr.2.data.map fun x => -lr * x))
          (pr.2.data.map fun x => -lr * x))) := by
  have hstep : ∀ (qg : List (Tensor × Tensor)),
      (∀ pr ∈ qg, pr.1.data.length = pr.1.size ∧
        pr.2.data.length = pr.1.size) →
      Optimizer.step (SGD.computeStep lr) qg =
        qg.map (fun pr => Tensor.mk pr.1.shape
          (List.zipWith (· + ·) pr.1.data
            (pr.2.data.map fun x => -lr * x))) :=
    fun qg hq => optStep_pointwise (fun x => -lr * x) qg hq
  refine ⟨hstep pg hlen, ?_⟩
  rw [hstep pg hlen, List.zip_map', hstep _ ?_, List.map_map]
  · exact List.map_congr_left fun pr hpr => rfl
  · intro q hq
    rw [List.mem_map] at hq
    obtain ⟨pr, hpr, rfl⟩ := hq
    refine ⟨?_, (hlen pr hpr).2⟩
    simp only [Tensor.size, List.length_zipWith, List.length_map,
      (hlen pr hpr).1, (hlen pr hpr).2]
    exact min_self _

/-- Witness for C8: one 2-element parameter and one 1-element parameter
with lr = 3. -/
theorem sgd_step_stateless_witness :
    (∀ pr ∈ [(Tensor.mk [2] [1, 2], Tensor.mk [2] [5, 7]),
             (Tensor.mk [1] [4], Tensor.mk [1] [9])],
        pr.1.data.length = pr.1.size ∧ pr.2.data.length = pr.1.size)
    ∧ (Optimizer.step (SGD.computeStep 3)
          [(Tensor.mk [2] [1, 2], Tensor.mk [2] [5, 7]),
             (Tensor.mk [1] [4], Tensor.mk [1] [9])] =
        ([(Tensor.mk [2] [1, 2], Tensor.mk [2] [5, 7]),
             (Tensor.mk [1] [4], Tensor.mk [1] [9])].map fun pr =>
          Tensor.mk pr.1.shape
            (List.zipWith (· + ·) pr.1.data
              (pr.2.data.map fun x => -3 * x)))
       ∧ Optimizer.step (SGD.computeStep 3)
          ((Optimizer.step (SGD.computeStep 3)
              [(Tensor.mk [2] [1, 2], Tensor.mk [2] [5, 7]),
                 (Tensor.mk [1] [4], Tensor.mk [1] [9])]).zip
            ([(Tensor.mk [2] [1, 2], Tensor.mk [2] [5, 7]),
                 (Tensor.mk [1] [4], Tensor.mk [1] [9])].map fun pr => pr.2)) =
        ([(Tensor.mk [2] [1, 2], Tensor.mk [2] [5, 7]),
             (Tensor.mk [1] [4], Tensor.mk [1] [9])].map fun pr =>
          Tensor.mk pr.1.shape
            (List.zipWith (· + ·)
              (List.zipWith (· + ·) pr.1.data
                (pr.2.data.map fun x => -3 * x))
              (pr.2.data.map fun x => -3 * x)))) :=
  ⟨by decide, sgd_step_stateless 3 _ (by decide)⟩

lemma zipWith_snd_of_length (a g : List ℚ) (h : a.length = g.length) :
    List.zipWith (fun x y => y) a g = g := by
  induction a generalizing g with
  | nil =>
      cases g with
      | nil => rfl
      | cons y ys => simp at h
  | cons _x xs ih =>
      cases g with
      | nil => simp at h
      | cons y ys =>
          simp only [List.zipWith_cons_cons]
          exact congrArg _ (ih ys (by simpa using h))

lemma momentum_zero_run (lr : ℚ) (n : ℕ) (gs : List (List ℚ)) :
    ∀ (acc : NpVal),
      (acc = NpVal.scalar 0 ∨ ∃ a, acc = NpVal.arr a ∧ a.length = n) →
      (∀ g ∈ gs, g.length = n) →
      Momentum.run { lr := lr, momentum := 0, acc := acc } gs =
        gs.map (fun g => NpVal.arr (SGD.computeStep lr g)) := by
  induction gs with
  | nil =>
      intro acc _ _
      rfl
  | cons g gs ih =>
      intro acc hacc hlen
      have hg : g.length = n := hlen g (List.mem_cons_self _ _)
      have hacc2 : NpVal.add (NpVal.smul 0 acc) (NpVal.arr g) = NpVal.arr g := by
        rcases hacc with h0 | ⟨a, ha, hla⟩
        · subst h0
          simp [NpVal.add, NpVal.smul, NpVal.bop]
        · subst ha
          simp only [NpVal.add, NpVal.smul, NpVal.bop, List.zipWith_map_left,
            zero_mul, zero_add]
          rw [zipWith_snd_of_length a g (hla.trans hg.symm)]
      simp only [Momentum.run, Momentum.computeStep, hacc2]
      rw [List.map_cons]
      refine congrArg₂ _ ?_ ?_
      · simp [NpVal.smul, NpVal.bop, SGD.computeStep]
      · exact ih (NpVal.arr g) (Or.inr ⟨g, rfl, hg⟩)
          (fun q hq => hlen q (List.mem_cons_of_mem _ hq))

/-- C10.  A `Momentum` optimizer constructed with `momentum = 0` is
behaviorally equivalent to SGD at the same `lr`: over any sequence of
same-length flat gradients, every `_compute_step` returns exactly
`-lr * g` for that call's gradient; moreover in the steady state the
accumulator after a call equals that call's gradient and the returned step
is the SGD step. -/
theorem momentum_zero_equiv_sgd (lr : ℚ) (n : ℕ) (gs : List (List ℚ))
    (hlen : ∀ g ∈ gs, g.length = n) (a g : List ℚ)
    (hag : a.length = g.length) :
    Momentum.run (Momentum.init lr 0) gs =
      gs.map (fun g => NpVal.arr (SGD.computeStep lr g))
    ∧ (Momentum.computeStep
        { lr := lr, momentum := 0, acc := NpVal.arr a }
        (NpVal.arr g)).1.acc = NpVal.arr g
    ∧ (Momentum.computeStep
        { lr := lr, momentum := 0, acc := NpVal.arr a }
        (NpVal.arr g)).2 = NpVal.arr (SGD.computeStep lr g) := by
  have hacc2 : NpVal.add (NpVal.smul 0 (NpVal.arr a)) (NpVal.arr g) =
      NpVal.arr g := by
    simp only [NpVal.add, NpVal.smul, NpVal.bop, List.zipWith_map_left,
      zero_mul, zero_add]
    rw [zipWith_snd_of_length a g hag]
  refine ⟨momentum_zero_run lr n gs (NpVal.scalar 0) (Or.inl rfl) hlen, ?_, ?_⟩
  · simp only [Momentum.computeStep, hacc2]
  · simp only [Momentum.computeStep, hacc2]
    simp [NpVal.smul, NpVal.bop, SGD.computeStep]

/-- Witness for C10: gradients `[[1,2],[3,4]]` of common length 2,
`lr = 2`, and a steady-state call with accumulator `[5,6]` and gradient
`[7,8]`. -/
theorem momentum_zero_equiv_sgd_witness :
    (∀ g ∈ [[(1 : ℚ), 2], [3, 4]], g.length = 2)
    ∧ ([(5 : ℚ), 6].length = [(7 : ℚ), 8].length)
    ∧ (Momentum.run (Momentum.init 2 0) [[(1 : ℚ), 2], [3, 4]] =
        [[(1 : ℚ), 2], [3, 4]].map (fun g => NpVal.arr (SGD.computeStep 2 g))
       ∧ (Momentum.computeStep
            { lr := 2, momentum := 0, acc := NpVal.arr [(5 : ℚ), 6] }
            (NpVal.arr [(7 : ℚ), 8])).1.acc = NpVal.arr [(7 : ℚ), 8]
       ∧ (Momentum.computeStep
            { lr := 2, momentum := 0, acc := NpVal.arr [(5 : ℚ), 6] }
            (NpVal.arr [(7 : ℚ), 8])).2 =
          NpVal.arr (SGD.computeStep 2 [(7 : ℚ), 8])) :=
  ⟨by decide, by decide,
    momentum_zero_equiv_sgd 2 2 [[(1 : ℚ), 2], [3, 4]] (by decide)
      [(5 : ℚ), 6] [(7 : ℚ), 8] (by decide)⟩

lemma sched_iterate_t {α ρ σ : Type} (f : Sched α ρ σ → α) (n : Nat)
    (s : Sched α ρ σ) :
    ((fun q => (Sched.step f q).1)^[n] s).t = s.t + n := by
  induction n generalizing s with
  | zero => rfl
  | succ n ih =>
      rw [Function.iterate_succ_apply, ih]
      simp only [Sched.step]
      omega

/-- C9.  For every scheduler: the counter starts at 0 at construction and
each `step()` increments it by exactly 1, so after `n` calls it equals `n`;
`step()` writes the value of `_compute_lr()` (evaluated on the incremented
counter and live rate) into the wrapped optimizer's `lr` field and returns
the new rate; no other field of the optimizer (`optRest`) is modified, nor
the snapshot or the variant constants; and `get_current_lr()` reads the
optimizer's live `lr`, not a cached copy. -/
theorem lrscheduler_step_counter {α ρ σ : Type} (f : Sched α ρ σ → α)
    (s : Sched α ρ σ) (lr0 : α) (rest0 : ρ) (cfg0 : σ) (n : Nat) :
    (Sched.init lr0 rest0 cfg0).t = 0
    ∧ (Sched.init lr0 rest0 cfg0).initial_lr = lr0
    ∧ (Sched.step f s).1.t = s.t + 1
    ∧ ((fun q => (Sched.step f q).1)^[n] (Sched.init lr0 rest0 cfg0)).t = n
    ∧ (Sched.step f s).1.optLr = f { s with t := s.t + 1 }
    ∧ (Sched.step f s).2 = (Sched.step f s).1.optLr
    ∧ (Sched.step f s).1.optRest = s.optRest
    ∧ (Sched.step f s).1.initial_lr = s.initial_lr
    ∧ (Sched.step f s).1.cfg = s.cfg
    ∧ Sched.getCurrentLr s = s.optLr := by
  refine ⟨rfl, rfl, rfl, ?_, rfl, rfl, rfl, rfl, rfl, rfl⟩
  rw [sched_iterate_t]
  simp [Sched.init]

lemma adjacent_all_iff_chain (l : List ℤ) :
    ((l.zip l.tail).all fun pr => decide (pr.1 < pr.2)) = true ↔
      List.Chain' (· < ·) l := by
  induction l with
  | nil => simp [List.Chain']
  | cons x tl ih =>
      cases tl with
      | nil => simp
      | cons y tl2 =>
          simp only [List.tail_cons, List.zip_cons_cons, List.all_cons,
            Bool.and_eq_true, decide_eq_true_eq, List.chain'_cons]
          exact and_congr Iff.rfl ih

/-- C3 counterexample: constructing a MultiStepLR with the non-integer
milestones `[3/2, 5/2]` succeeds (the values are silently truncated to
`[1, 2]`), although the claim says construction with non-integer
milestones fails. -/
theorem multiStepLR_nonint_accepted :
    MultiStepLR.init [3 / 2, 5 / 2] (1 / 10) =
      Except.ok ([1, 2], 1 / 10) := by
  rw [MultiStepLR.init]
  norm_num [pyInt, isinstanceInt]

lemma multiStep_ok_iff (milestones : List ℚ) (gamma : ℚ) :
    (∃ r, MultiStepLR.init milestones gamma = Except.ok r) ↔
      ((((milestones.map pyInt).zip (milestones.map pyInt).tail).all
          fun pr => decide (pr.1 < pr.2))
        && (milestones.map pyInt).all isinstanceInt) = true := by
  rw [MultiStepLR.init]
  split
  next h => simp only [h, iff_true]; exact ⟨_, rfl⟩
  next h =>
    constructor
    · intro hr
      obtain ⟨r, hr⟩ := hr
      exact absurd hr (by simp)
    · intro hc
      exact absurd hc h

/-- C3 amended.  `MultiStepLR.__init__` converts every milestone with
`int(m)` (truncation toward zero) before validating; it fails with the
InvalidArgument-style assert iff the converted list is not strictly
increasing.  The `isinstance(x, int)` part of the assert runs on the
converted list and is vacuous, so non-integer milestones are truncated and
accepted whenever their truncations are strictly increasing.  In
particular `[5, 3]` fails. -/
theorem multiStepLR_init_iff (milestones : List ℚ) (gamma : ℚ) :
    ((∃ r, MultiStepLR.init milestones gamma = Except.ok r) ↔
      List.Chain' (· < ·) (milestones.map pyInt))
    ∧ MultiStepLR.init [5, 3] gamma =
        Except.error "milestones must be a list of int and be increasing!" := by
  constructor
  · rw [multiStep_ok_iff, Bool.and_eq_true,
      show ((milestones.map pyInt).all isinstanceInt) = true by
        simp [isinstanceInt]]
    simp only [and_true]
    exact adjacent_all_iff_chain _
  · rw [MultiStepLR.init]
    norm_num [pyInt, isinstanceInt]

/-- C4 counterexample: constructing the base optimizer (hence SGD) with
`lr = -1 ≤ 0` succeeds, although the claim says construction with
non-positive `lr` fails with an InvalidArgument-kind error. -/
theorem optimizer_init_negative_lr_ok :
    Optimizer.init (-1) = Except.ok { lr := -1 }
    ∧ SGD.init (-1) = Except.ok { lr := -1 } :=
  ⟨rfl, rfl⟩

/-- C4 amended.  `Optimizer.__init__` (and `SGD.__init__`, which only
forwards to it) performs no validation of `lr` whatsoever: for every `lr`,
including `lr ≤ 0`, construction succeeds and stores `lr` unchanged. -/
theorem optimizer_init_no_validation (lr : ℚ) :
    Optimizer.init lr = Except.ok { lr := lr }
    ∧ SGD.init lr = Except.ok { lr := lr } :=
  ⟨rfl, rfl⟩

lemma linearLR_step_frozen (s : Sched ℚ Unit LinearCfg)
    (h : s.cfg.start_step + s.cfg.decay_steps ≤ s.t) :
    (LinearLR.step s).1.optLr = s.optLr ∧
      (LinearLR.step s).1.cfg = s.cfg ∧ (LinearLR.step s).1.t = s.t + 1 := by
  refine ⟨?_, rfl, rfl⟩
  simp only [LinearLR.step, Sched.step, LinearLR.computeLr, Sched.getCurrentLr]
  split
  · split
    · omega
    · rfl
  · rfl

lemma linearLR_iterate_frozen (m : Nat) (s : Sched ℚ Unit LinearCfg)
    (h : s.cfg.start_step + s.cfg.decay_steps ≤ s.t) :
    ((fun q => (LinearLR.step q).1)^[m] s).optLr = s.optLr := by
  induction m generalizing s with
  | zero => rfl
  | succ m ih =>
      rw [Function.iterate_succ_apply]
      obtain ⟨h1, h2, h3⟩ := linearLR_step_frozen s h
      rw [ih _ (by rw [h2, h3]; omega), h1]

lemma linS_step (lr : ℚ) (t : Nat) :
    (LinearLR.step (linS lr t)).1 =
      linS (if t + 1 ≤ 5 then lr + -1 / 5 else lr) (t + 1) := by
  simp only [LinearLR.step, Sched.step, LinearLR.computeLr,
    Sched.getCurrentLr, linS, linCfg]
  simp only [Sched.mk.injEq, and_true, true_and]
  norm_num

/-- C6.  Each LinearLR `step()` leaves the rate unchanged while the
post-increment counter satisfies `t ≤ start_step`, adds the fixed delta
`(final_lr - initial_lr)/decay_steps` to the current (live) rate while
`start_step < t ≤ start_step + decay_steps`, and leaves the rate unchanged
for `t > start_step + decay_steps`; the delta stored at construction is
`(final_lr - initial_lr)/decay_steps`.  Concretely, with
`decay_steps = 5, final_lr = 0, start_step = 0, initial_lr = 1`, the rate
decreases by 1/5 per call for 5 calls, reaching 0 at call 5, and stays 0 on
every subsequent call. -/
theorem linearLR_rate_schedule (s : Sched ℚ Unit LinearCfg) (m : Nat) :
    (s.t + 1 ≤ s.cfg.start_step → (LinearLR.step s).1.optLr = s.optLr)
    ∧ (s.cfg.start_step < s.t + 1 →
        s.t + 1 ≤ s.cfg.start_step + s.cfg.decay_steps →
        (LinearLR.step s).1.optLr = s.optLr + s.cfg.lr_delta)
    ∧ (s.cfg.start_step + s.cfg.decay_steps < s.t + 1 →
        (LinearLR.step s).1.optLr = s.optLr)
    ∧ LinearLR.init 1 5 0 0 = Except.ok linearEx
    ∧ linearEx.cfg.lr_delta = (0 - 1) / 5
    ∧ ((fun q => (LinearLR.step q).1)^[1] linearEx).optLr = 4 / 5
    ∧ ((fun q => (LinearLR.step q).1)^[2] linearEx).optLr = 3 / 5
    ∧ ((fun q => (LinearLR.step q).1)^[3] linearEx).optLr = 2 / 5
    ∧ ((fun q => (LinearLR.step q).1)^[4] linearEx).optLr = 1 / 5
    ∧ ((fun q => (LinearLR.step q).1)^[5] linearEx).optLr = 0
    ∧ ((fun q => (LinearLR.step q).1)^[5 + m] linearEx).optLr = 0 := by
  have hstep : ∀ (q : Sched ℚ Unit LinearCfg), (LinearLR.step q).1.optLr =
      LinearLR.computeLr { q with t := q.t + 1 } := fun q => rfl
  have i1 : (fun q => (LinearLR.step q).1)^[1] linearEx = linS (4 / 5) 1 := by
    rw [Function.iterate_one]
    show (LinearLR.step (linS 1 0)).1 = linS (4 / 5) 1
    rw [linS_step]
    norm_num
  have i2 : (fun q => (LinearLR.step q).1)^[2] linearEx = linS (3 / 5) 2 := by
    rw [show (2 : Nat) = 1 + 1 from rfl, Function.iterate_succ_apply', i1]
    show (LinearLR.step (linS (4 / 5) 1)).1 = linS (3 / 5) 2
    rw [linS_step]
    norm_num
  have i3 : (fun q => (LinearLR.step q).1)^[3] linearEx = linS (2 / 5) 3 := by
    rw [show (3 : Nat) = 2 + 1 from rfl, Function.iterate_succ_apply', i2]
    show (LinearLR.step (linS (3 / 5) 2)).1 = linS (2 / 5) 3
    rw [linS_step]
    norm_num
  have i4 : (fun q => (LinearLR.step q).1)^[4] linearEx = linS (1 / 5) 4 := by
    rw [show (4 : Nat) = 3 + 1 from rfl, Function.iterate_succ_apply', i3]
    show (LinearLR.step (linS (2 / 5) 3)).1 = linS (1 / 5) 4
    rw [linS_step]
    norm_num
  have i5 : (fun q => (LinearLR.step q).1)^[5] linearEx = linS 0 5 := by
    rw [show (5 : Nat) = 4 + 1 from rfl, Function.iterate_succ_apply', i4]
    show (LinearLR.step (linS (1 / 5) 4)).1 = linS 0 5
    rw [linS_step]
    norm_num
  refine ⟨?_, ?_, ?_, ?_, ?_, ?_, ?_, ?_, ?_, ?_, ?_⟩
  · intro h
    rw [hstep]
    simp only [LinearLR.computeLr, Sched.getCurrentLr]
    split
    · omega
    · rfl
  · intro h1 h2
    rw [hstep]
    simp only [LinearLR.computeLr, Sched.getCurrentLr]
    rw [if_pos h1, if_pos h2]
  · intro h
    rw [hstep]
    simp only [LinearLR.computeLr, Sched.getCurrentLr]
    split
    · split
      · omega
      · rfl
    · rfl
  · rw [LinearLR.init, if_pos (by norm_num), if_pos (by norm_num)]
    rw [show linearEx = Sched.init 1 () linCfg from rfl]
    norm_num [Sched.init, linCfg, LinearCfg.mk.injEq, Sched.mk.injEq]
  · rw [show linearEx = Sched.init 1 () linCfg from rfl]
    norm_num [Sched.init, linCfg]
  · rw [i1]; rfl
  · rw [i2]; rfl
  · rw [i3]; rfl
  · rw [i4]; rfl
  · rw [i5]; rfl
  · rw [show 5 + m = m + 5 from Nat.add_comm 5 m, Function.iterate_add_apply,
      i5, linearLR_iterate_frozen m _ (by norm_num [linS, linCfg])]
    rfl

/-- Witness for C6: the three conditional branches at the concrete
scheduler states `linW 0`, `linW 2`, `linW 8`, and the concrete decay
run. -/
theorem linearLR_rate_schedule_witness :
    ((linW 0).t + 1 ≤ (linW 0).cfg.start_step
      ∧ (LinearLR.step (linW 0)).1.optLr = (linW 0).optLr)
    ∧ ((linW 2).cfg.start_step < (linW 2).t + 1
      ∧ (linW 2).t + 1 ≤ (linW 2).cfg.start_step + (linW 2).cfg.decay_steps
      ∧ (LinearLR.step (linW 2)).1.optLr = (linW 2).optLr + (linW 2).cfg.lr_delta)
    ∧ ((linW 8).cfg.start_step + (linW 8).cfg.decay_steps < (linW 8).t + 1
      ∧ (LinearLR.step (linW 8)).1.optLr = (linW 8).optLr)
    ∧ ((fun q => (LinearLR.step q).1)^[5 + 3] linearEx).optLr = 0 :=
  ⟨⟨by norm_num [linW], (linearLR_rate_schedule (linW 0) 0).1 (by norm_num [linW])⟩,
    ⟨by norm_num [linW], by norm_num [linW],
      (linearLR_rate_schedule (linW 2) 0).2.1 (by norm_num [linW])
        (by norm_num [linW])⟩,
    ⟨by norm_num [linW],
      (linearLR_rate_schedule (linW 8) 0).2.2.1 (by norm_num [linW])⟩,
    (linearLR_rate_schedule linearEx 3).2.2.2.2.2.2.2.2.2.2⟩

lemma expLR_iterate_fields (n : Nat) (s : Sched ℝ Unit ExpCfg) :
    ((fun q => (ExponentialLR.step q).1)^[n] s).t = s.t + n
    ∧ ((fun q => (ExponentialLR.step q).1)^[n] s).initial_lr = s.initial_lr
    ∧ ((fun q => (ExponentialLR.step q).1)^[n] s).cfg = s.cfg := by
  induction n generalizing s with
  | zero => exact ⟨rfl, rfl, rfl⟩
  | succ n ih =>
      rw [Function.iterate_succ_apply]
      obtain ⟨h1, h2, h3⟩ := ih (ExponentialLR.step s).1
      refine ⟨?_, h2, h3⟩
      rw [h1]
      show s.t + 1 + n = s.t + (n + 1)
      omega

lemma expLR_step_frozen (s : Sched ℝ Unit ExpCfg)
    (h : s.cfg.decay_steps < s.t + 1) :
    (ExponentialLR.step s).1.optLr = s.optLr := by
  show ExponentialLR.computeLr { s with t := s.t + 1 } = s.optLr
  simp only [ExponentialLR.computeLr, Sched.getCurrentLr]
  rw [if_neg (by omega)]

lemma expLR_iterate_frozen (m : Nat) (s : Sched ℝ Unit ExpCfg)
    (h : s.cfg.decay_steps ≤ s.t) :
    ((fun q => (ExponentialLR.step q).1)^[m] s).optLr = s.optLr := by
  induction m generalizing s with
  | zero => rfl
  | succ m ih =>
      rw [Function.iterate_succ_apply]
      rw [ih _ (by show s.cfg.decay_steps ≤ s.t + 1; omega),
        expLR_step_frozen s (by omega)]

/-- C2.  Each ExponentialLR `step()` sets the rate to
`initial_lr * decay_rate ^ (t / decay_steps)` — computed fresh from the
`initial_lr` snapshot, which is itself never modified — while the
post-increment counter satisfies `t ≤ decay_steps`, and leaves the rate
frozen at its last value for `t > decay_steps`.  Concretely, with
`decay_steps = 10, decay_rate = 1/2, initial_lr = 1`, the rate after call
10 equals `1/2` and the rate after call 15 equals the rate after call
10. -/
theorem exponentialLR_decay (s : Sched ℝ Unit ExpCfg) :
    (s.t + 1 ≤ s.cfg.decay_steps →
      (ExponentialLR.step s).1.optLr =
        s.initial_lr * s.cfg.decay_rate ^
          (((s.t + 1 : Nat) : ℝ) / (s.cfg.decay_steps : ℝ)))
    ∧ (s.cfg.decay_steps < s.t + 1 →
        (ExponentialLR.step s).1.optLr = s.optLr)
    ∧ (ExponentialLR.step s).1.initial_lr = s.initial_lr
    ∧ ((fun q => (ExponentialLR.step q).1)^[10] expEx).optLr = 1 / 2
    ∧ ((fun q => (ExponentialLR.step q).1)^[15] expEx).optLr =
        ((fun q => (ExponentialLR.step q).1)^[10] expEx).optLr := by
  have h10 : ((fun q => (ExponentialLR.step q).1)^[10] expEx).optLr = 1 / 2 := by
    rw [show (10 : Nat) = 9 + 1 from rfl, Function.iterate_succ_apply']
    obtain ⟨ht, hi, hc⟩ := expLR_iterate_fields 9 expEx
    show ExponentialLR.computeLr
      { (fun q => (ExponentialLR.step q).1)^[9] expEx with
        t := ((fun q => (ExponentialLR.step q).1)^[9] expEx).t + 1 } = 1 / 2
    simp only [ExponentialLR.computeLr, Sched.getCurrentLr, ht, hi, hc]
    rw [if_pos (by norm_num [expEx, Sched.init])]
    rw [show expEx.t = 0 from rfl, show expEx.initial_lr = 1 from rfl,
      show expEx.cfg = { decay_steps := 10, decay_rate := 1 / 2 } from rfl]
    rw [show (((0 + 9 + 1 : Nat) : ℝ) / ((10 : Nat) : ℝ)) = 1 by norm_num]
    rw [Real.rpow_one]
    norm_num
  refine ⟨?_, ?_, rfl, h10, ?_⟩
  · intro h
    show ExponentialLR.computeLr { s with t := s.t + 1 } = _
    simp only [ExponentialLR.computeLr, Sched.getCurrentLr]
    rw [if_pos (by omega)]
  · intro h
    exact expLR_step_frozen s h
  · rw [show (15 : Nat) = 5 + 10 from rfl, Function.iterate_add_apply]
    refine expLR_iterate_frozen 5 _ ?_
    obtain ⟨ht, hi, hc⟩ := expLR_iterate_fields 10 expEx
    rw [ht, hc]
    show ({ decay_steps := 10, decay_rate := 1 / 2 } : ExpCfg).decay_steps ≤
      expEx.t + 10
    norm_num [expEx, Sched.init]

/-- Witness for C2: the decay branch at the initial state `expEx`
(counter about to become 1 ≤ 10), the frozen branch at `expW` (counter
about to become 13 > 10), and the concrete rate after 10 calls. -/
theorem exponentialLR_decay_witness :
    (expEx.t + 1 ≤ expEx.cfg.decay_steps
      ∧ (ExponentialLR.step expEx).1.optLr =
          expEx.initial_lr * expEx.cfg.decay_rate ^
            (((expEx.t + 1 : Nat) : ℝ) / (expEx.cfg.decay_steps : ℝ)))
    ∧ (expW.cfg.decay_steps < expW.t + 1
      ∧ (ExponentialLR.step expW).1.optLr = expW.optLr)
    ∧ ((fun q => (ExponentialLR.step q).1)^[10] expEx).optLr = 1 / 2 :=
  ⟨⟨by norm_num [expEx, Sched.init],
      (exponentialLR_decay expEx).1 (by norm_num [expEx, Sched.init])⟩,
    ⟨by norm_num [expW], (exponentialLR_decay expW).2.1 (by norm_num [expW])⟩,
    (exponentialLR_decay expEx).2.2.2.1⟩

/-- C5.  After the first `Adam._compute_step` call (so `t = 1`) on flat
gradient `g`: the bias-corrected rate equals `lr*sqrt(1-β2)/(1-β1)`, the
first moment equals `(1-β1)*g`, the second moment equals `(1-β2)*g²`
elementwise, and the returned step equals `-lr_t*m/(sqrt(v)+eps)`
elementwise.  Proved for arbitrary real `β1, β2`, hence in particular for
`β1 = 0.9, β2 = 0.999`. -/
theorem adam_first_step (lr b1 b2 eps : ℝ) (g : List ℝ) :
    Adam.lrT lr b1 b2 1 = lr * Real.sqrt (1 - b2) / (1 - b1)
    ∧ ((Adam.init lr b1 b2 eps).computeStep (RVal.arr g)).1.t = 1
    ∧ ((Adam.init lr b1 b2 eps).computeStep (RVal.arr g)).1.m =
        RVal.arr (g.map fun x => (1 - b1) * x)
    ∧ ((Adam.init lr b1 b2 eps).computeStep (RVal.arr g)).1.v =
        RVal.arr (g.map fun x => (1 - b2) * x ^ 2)
    ∧ ((Adam.init lr b1 b2 eps).computeStep (RVal.arr g)).2 =
        RVal.arr (g.map fun x =>
          -Adam.lrT lr b1 b2 1 * ((1 - b1) * x) /
            (Real.sqrt ((1 - b2) * x ^ 2) + eps)) := by
  refine ⟨by rw [Adam.lrT, pow_one, pow_one], rfl, ?_, ?_, ?_⟩
  all_goals
    simp only [Adam.computeStep, Adam.init, RVal.add, RVal.smul, RVal.div,
      RVal.square, RVal.sqrtv, RVal.umap, RVal.bop, List.map_map,
      List.zipWith_map_left, List.zipWith_map_right, List.zipWith_same,
      mul_zero, zero_add]
  all_goals
    refine congrArg _ (List.map_congr_left fun x hx => ?_)
  all_goals simp only [Function.comp_apply]

end TinyNN
